import Mathlib

/-
  Shallow embedding of the conan-center-bot repository (qchateau/conan-center-bot),
  covering the parts of the source that the verified claims are about:

    - src/ccb/version.py            (Version parsing, classification and ordering)
    - src/ccb/project_specifics.py  (global tag blacklist, whitelist examples)
    - src/ccb/upstream_project.py   (GitProject tag filtering and versions sets,
                                     GnomeProject.source_url)
    - src/ccb/subprocess.py         (check_call failure behaviour)
    - src/ccb/update/common.py      (get_test_details, test_recipe, smart_insert,
                                     update_one_recipe)
    - src/ccb/update/auto.py        (auto_update_one_recipe gates)
    - src/ccb/update/manual.py      (manual_update_one_recipe branch gate)
    - src/ccb/recipe.py             (VersionedRecipe.prs_opened_for)

  Python regular-expression searches are translated as explicit executable
  scanners over lists of characters, faithful to the concrete patterns that
  appear in the source (including greedy matching and backtracking order where
  the extracted group depends on it).  Wall-clock durations, logging and the
  event-loop/semaphore machinery are not modelled; stateful effects of the
  update pipelines (worktree acquisition, file patching, branch creation,
  pushes) are modelled as explicit action traces.
-/

/-! ## Generic character/string helpers -/

/-- Test whether the second list is a prefix of the first (hay, needle). -/
def strStarts : List Char → List Char → Bool
  | _, [] => true
  | [], _ :: _ => false
  | c :: cs, p :: ps => c = p && strStarts cs ps

/-- Try a parser at every suffix position, leftmost first — the semantics of an
unanchored Python regex search over start positions (including the end-of-string
position). -/
def searchPos {α : Type} (f : List Char → Option α) : List Char → Option α
  | [] => f []
  | c :: cs =>
    match f (c :: cs) with
    | some r => some r
    | none => searchPos f cs

/-- Does any suffix of the list satisfy the predicate (including the empty suffix)? -/
def anySuffix (f : List Char → Bool) : List Char → Bool
  | [] => f []
  | c :: cs => f (c :: cs) || anySuffix f cs

/-- First element of the list on which the function succeeds. -/
def firstSome {α β : Type} (l : List α) (f : α → Option β) : Option β :=
  match l with
  | [] => none
  | a :: as =>
    match f a with
    | some b => some b
    | none => firstSome as f

/-- Split a character list on a separator character, Python str.split semantics:
"a.b".split(".") = ["a","b"], ".b".split(".") = ["","b"], "".split(".") = [""]. -/
def splitOnChar (c : Char) : List Char → List (List Char)
  | [] => [[]]
  | x :: xs =>
    let r := splitOnChar c xs
    if x = c then [] :: r
    else
      match r with
      | [] => [[x]]
      | h :: t => (x :: h) :: t

/-- ASCII lower-casing, the effect of re.IGNORECASE on the patterns involved. -/
def lowerChar (c : Char) : Char :=
  if 'A' ≤ c ∧ c ≤ 'Z' then Char.ofNat (c.toNat + 32) else c

/-- Strip a needle case-insensitively from the front of the hay, returning the rest. -/
def ciStrip : List Char → List Char → Option (List Char)
  | cs, [] => some cs
  | [], _ :: _ => none
  | c :: cs, p :: ps => if lowerChar c = lowerChar p then ciStrip cs ps else none

/-- Python ASCII whitespace class backslash-s: space, tab, newline, CR, VT, FF. -/
def isPySpace (c : Char) : Bool :=
  c = ' ' || c = '\t' || c = '\n' || c = '\r' || c = Char.ofNat 11 || c = Char.ofNat 12

/-- Join a list of strings with newline separators — Python "\n".join. -/
def joinNL : List String → String
  | [] => ""
  | [s] => s
  | s :: rest => s ++ "\n" ++ joinNL rest

/-! ## src/ccb/version.py — the version model

Patterns, as compiled at the top of version.py:
  VERSION_DATE_RE       ([0-9]{4})[\.-_]?([0-9]{2})[\.-_]?([0-9]{2})
  VERSION_RE            [0-9]+(\.[0-9]+)+
  VERSION_DASH_RE       [0-9]+(-[0-9]+)+
  VERSION_COUNTER_RE    ^[rv]?([0-9]+)$
  VERSION_UNDERSCORE_RE [0-9]+(_[0-9]+)+
-/

/-- Maximal run of ASCII digits at the front, plus the remainder. -/
def digitRun : List Char → List Char × List Char
  | [] => ([], [])
  | c :: cs =>
    if c.isDigit then
      let (r, t) := digitRun cs
      (c :: r, t)
    else ([], c :: cs)

/-- Greedy scanner for the (sep[0-9]+)+ part of the dotted/dashed/underscored
version patterns: consumes as many "sep digits" groups as possible.  The fuel
argument bounds the recursion; each step consumes at least two characters, so
the initial list length is always sufficient fuel. -/
def sepGroupsFuel (sep : Char) : Nat → List Char → List Char × List Char
  | 0, cs => ([], cs)
  | fuel + 1, cs =>
    match cs with
    | c :: c2 :: rest =>
      if c = sep && c2.isDigit then
        let p := digitRun (c2 :: rest)
        let q := sepGroupsFuel sep fuel p.2
        (c :: (p.1 ++ q.1), q.2)
      else ([], cs)
    | _ => ([], cs)

def sepGroups (sep : Char) (cs : List Char) : List Char × List Char :=
  sepGroupsFuel sep cs.length cs

/-- Match [0-9]+(sep[0-9]+)+ anchored at the current position, returning the
matched text (group(0) of VERSION_RE / VERSION_DASH_RE / VERSION_UNDERSCORE_RE). -/
def versionMatchAt (sep : Char) (cs : List Char) : Option (List Char) :=
  match digitRun cs with
  | ([], _) => none
  | (d0, rest) =>
    let g := sepGroups sep rest
    if g.1.isEmpty then none else some (d0 ++ g.1)

/-- The separator class of VERSION_DATE_RE is written [\.-_] in the source: an
escaped dot, a dash, an underscore.  In Python regex syntax this is the
character RANGE from "." (0x2E) to "_" (0x5F) — it includes digits and capital
letters, not just the three separator characters. -/
def isDateSep (c : Char) : Bool := '.' ≤ c && c ≤ '_'

/-- Exactly n ASCII digits from the front. -/
def takeDigits : Nat → List Char → Option (List Char × List Char)
  | 0, cs => some ([], cs)
  | _ + 1, [] => none
  | n + 1, c :: cs =>
    if c.isDigit then
      match takeDigits n cs with
      | some (d, r) => some (c :: d, r)
      | none => none
    else none

/-- The two alternatives of an optional greedy separator [\.-_]? — consume
first, then fall back to not consuming. -/
def optSepAlts (cs : List Char) : List (List Char) :=
  match cs with
  | c :: r => if isDateSep c then [r, c :: r] else [c :: r]
  | [] => [[]]

/-- Match VERSION_DATE_RE at the current position, returning the concatenation
of the three digit groups ("".join(match.groups())), honouring the greedy
backtracking order of the two optional separators. -/
def dateMatchAt (cs : List Char) : Option (List Char) :=
  match takeDigits 4 cs with
  | none => none
  | some (d4, r1) =>
    firstSome (optSepAlts r1) fun r2 =>
      match takeDigits 2 r2 with
      | none => none
      | some (d2, r3) =>
        firstSome (optSepAlts r3) fun r4 =>
          match takeDigits 2 r4 with
          | none => none
          | some (d2b, _) => some (d4 ++ d2 ++ d2b)

def dateSearch (cs : List Char) : Option (List Char) :=
  searchPos dateMatchAt cs

/-- Match ^[rv]?([0-9]+)$ (VERSION_COUNTER_RE), returning the digit group. -/
def counterMatch (cs : List Char) : Option (List Char) :=
  match cs with
  | c :: rest =>
    if (c = 'r' || c = 'v') && !rest.isEmpty && rest.all Char.isDigit then some rest
    else if (c :: rest).all Char.isDigit then some (c :: rest)
    else none
  | [] => none

/-- src/ccb/version.py _fix_version: try the five patterns in order, returning
the canonicalized numeric-dot string, or the UNKNOWN sentinel. -/
def fix_version (version : String) : String :=
  let cs := version.toList
  match searchPos (versionMatchAt '.') cs with
  | some m => String.mk m
  | none =>
  match searchPos (versionMatchAt '-') cs with
  | some m => String.mk (m.map fun c => if c = '-' then '.' else c)
  | none =>
  match searchPos (versionMatchAt '_') cs with
  | some m => String.mk (m.map fun c => if c = '_' then '.' else c)
  | none =>
  match dateSearch cs with
  | some g => String.mk g
  | none =>
  match counterMatch cs with
  | some d => String.mk d
  | none => "unknown"

/-- Python int() applied to the components produced by the fixers: a nonempty
all-digit string (the only shapes reachable from fix_version). -/
def parsePyInt (cs : List Char) : Option Nat :=
  if !cs.isEmpty && cs.all Char.isDigit then
    some (cs.foldl (fun acc c => acc * 10 + (c.toNat - '0'.toNat)) 0)
  else none

/-- src/ccb/version.py _to_numeric: split the canonical form on dots and parse
each component as an integer; None on any failure (in particular on the
UNKNOWN sentinel, which has no digits). -/
def to_numeric (s : String) : Option (List Nat) :=
  let parts := (splitOnChar '.' s.toList).map parsePyInt
  if parts.all Option.isSome then some (parts.map (fun p => p.getD 0)) else none

/-- src/ccb/version.py Version: original raw string, canonical form, numeric
tuple, date classification.  The meta field (tag date / commit count) carries
no behaviour relevant to the claims and is omitted. -/
structure Version where
  original : String
  fixed : String
  to_numeric : Option (List Nat)
  is_date : Bool
deriving DecidableEq

def Version.UNKNOWN : String := "unknown"

/-- Version.__init__ with an explicit fixer. -/
def mkVersionWith (fixer : String → String) (version : String) : Version :=
  let fixed := fixer version
  { original := version
    fixed := fixed
    to_numeric := to_numeric fixed
    is_date := (dateSearch (if fixed ≠ Version.UNKNOWN then fixed else version).toList).isSome }

/-- Version.__init__ with the default fixer (_fix_version). -/
def mkVersion (version : String) : Version := mkVersionWith fix_version version

/-- Version() — the default constructor used for unknown versions. -/
def defaultVersion : Version := mkVersion Version.UNKNOWN

/-- Version.unknown: compares the ORIGINAL string against the sentinel, not the
canonical form. -/
def Version.unknown (v : Version) : Bool := v.original == Version.UNKNOWN

/-- Python tuple comparison on the numeric forms: strict lexicographic order,
a strict prefix is smaller. -/
def lexLt : List Nat → List Nat → Bool
  | _, [] => false
  | [], _ :: _ => true
  | a :: as, b :: bs =>
    if a < b then true
    else if a = b then lexLt as bs
    else false

/-- Version.__lt__. -/
def Version.lt (a b : Version) : Bool :=
  match b.to_numeric with
  | none => false
  | some nb =>
    match a.to_numeric with
    | none => true
    | some na =>
      if a.is_date = b.is_date then lexLt na nb
      else a.is_date

/-- Version.__eq__: equality is on the canonical form only. -/
def Version.eqv (a b : Version) : Bool := a.fixed == b.fixed

/-- functools.total_ordering derives __gt__ from __lt__ and __eq__:
a > b iff not (a < b) and a != b. -/
def Version.gt (a b : Version) : Bool := !(Version.lt a b) && !(Version.eqv a b)

/-- functools.total_ordering derives __le__: a <= b iff a < b or a == b. -/
def Version.le (a b : Version) : Bool := Version.lt a b || Version.eqv a b

/-- Version.inconsistent_with. -/
def inconsistent_with (self other : Version) : Bool :=
  !other.unknown && !self.unknown && (other.is_date != self.is_date)

/-- Version.consistent_with. -/
def consistent_with (self other : Version) : Bool :=
  !other.unknown && !self.unknown && (other.is_date == self.is_date)

/-- Version.updatable_to: consistent and other > self. -/
def updatable_to (self other : Version) : Bool :=
  consistent_with self other && Version.gt other self

/-- Version.up_to_date_with: consistent and other <= self. -/
def up_to_date_with (self other : Version) : Bool :=
  consistent_with self other && Version.le other self

/-! ## src/ccb/update/common.py — validator output matchers

Patterns, as compiled at the top of update/common.py:
  RE_HOOK_ERROR      ^\[HOOK.*\].*:\s*ERROR:\s*(.*)$        (re.M)
  RE_TEST_ERRORS[0]  ^ERROR:.*(Error in.*)                  (re.M | re.S)
  RE_TEST_ERRORS[1]  ^ERROR:.*(Invalid configuration.*)     (re.M | re.S)
  RE_TEST_ERRORS[2]  ^ERROR:\s*(.*)                         (re.M | re.S)
  RE_ALREADY_PATCHED WARN:\s*(.*):\s*already patched        (re.M)
-/

/-- Greedy split at the RIGHTMOST occurrence of a separator character such that
the continuation parser succeeds on what follows — the behaviour of a greedy
".*" before a literal character. -/
def lastSplitSat (c : Char) (k : List Char → Option String) : List Char → Option String
  | [] => none
  | x :: xs =>
    match lastSplitSat c k xs with
    | some r => some r
    | none => if x = c then k xs else none

/-- The tail of RE_HOOK_ERROR after its last colon: \s*ERROR:\s*(.*)$ within
one line (the whitespace runs are forced maximal because neither can start the
following literal). -/
def parseHookTail (u : List Char) : Option String :=
  let u1 := u.dropWhile isPySpace
  if strStarts u1 "ERROR:".toList then
    some (String.mk ((u1.drop 6).dropWhile isPySpace))
  else none

/-- Match RE_HOOK_ERROR against a single line, returning group(1).  The line
must start with "[HOOK"; the greedy ".*\]" picks the last closing bracket with
a parsing continuation, and the greedy ".*:" the last colon after it. -/
def hookLineDetail (line : List Char) : Option String :=
  if strStarts line "[HOOK".toList then
    lastSplitSat ']' (fun t => lastSplitSat ':' parseHookTail t) (line.drop 5)
  else none

/-- All group(1) captures of RE_HOOK_ERROR over the output, in order (with
re.M the per-line anchors make this a per-line match; the pattern cannot span
lines because "." does not match a newline here). -/
def hook_errors (output : String) : List String :=
  (splitOnChar '\n' output.toList).filterMap hookLineDetail

/-- Drop characters up to and including the first newline. -/
def dropToAfterNewline : List Char → Option (List Char)
  | [] => none
  | c :: cs => if c = '\n' then some cs else dropToAfterNewline cs

/-- The suffix just after "ERROR:" of the first line that starts with "ERROR:"
(the leftmost viable start for the ^ERROR: patterns under re.M).  Fueled
recursion: each step drops at least one character. -/
def firstErrorLineSuffixFuel : Nat → List Char → Option (List Char)
  | 0, _ => none
  | fuel + 1, cs =>
    if strStarts cs "ERROR:".toList then some (cs.drop 6)
    else
      match dropToAfterNewline cs with
      | none => none
      | some rest => firstErrorLineSuffixFuel fuel rest

def firstErrorLineSuffix (cs : List Char) : Option (List Char) :=
  firstErrorLineSuffixFuel (cs.length + 1) cs

/-- The suffix starting at the LAST occurrence of the needle — the start of
group(1) under a greedy ".*" with re.S, which extends to the end of the
string. -/
def lastOccurrenceSuffix (needle : List Char) : List Char → Option (List Char)
  | [] => none
  | x :: xs =>
    match lastOccurrenceSuffix needle xs with
    | some r => some r
    | none => if strStarts (x :: xs) needle then some (x :: xs) else none

/-- search of ^ERROR:.*(needle.*) with re.M|re.S: group(1) runs from the last
occurrence of the needle after the first ERROR line start, to the end of the
output. -/
def error_frame_search (needle : String) (output : String) : Option String :=
  match firstErrorLineSuffix output.toList with
  | none => none
  | some t => (lastOccurrenceSuffix needle.toList t).map String.mk

/-- search of ^ERROR:\s*(.*) with re.M|re.S: group(1) is the rest of the whole
output after the maximal whitespace run following the first "ERROR:" line
start. -/
def first_error_search (output : String) : Option String :=
  (firstErrorLineSuffix output.toList).map (fun t => String.mk (t.dropWhile isPySpace))

/-- RE_TEST_ERRORS, in source order. -/
def RE_TEST_ERRORS : List (String → Option String) :=
  [error_frame_search "Error in", error_frame_search "Invalid configuration",
   first_error_search]

/-- Inside a WARN match, find the rightmost colon on the current line (the
greedy "(.*)" group cannot span a newline) whose continuation is
\s*already patched; return the group and the unconsumed rest of the output. -/
def lastColonSat (pre : List Char) : List Char → Option (List Char × List Char)
  | [] => none
  | x :: xs =>
    if x = '\n' then none
    else
      match lastColonSat (pre ++ [x]) xs with
      | some r => some r
      | none =>
        if x = ':' then
          let v := xs.dropWhile isPySpace
          if strStarts v "already patched".toList then some (pre, v.drop 15)
          else none
        else none

/-- Match RE_ALREADY_PATCHED anchored at the current position. -/
def matchWarnAt (cs : List Char) : Option (List Char × List Char) :=
  if strStarts cs "WARN:".toList then
    lastColonSat [] ((cs.drop 5).dropWhile isPySpace)
  else none

/-- finditer of RE_ALREADY_PATCHED: leftmost non-overlapping matches; the fuel
is the initial length, sufficient because every step consumes at least one
character. -/
def warnFindAll : Nat → List Char → List String
  | 0, _ => []
  | _, [] => []
  | fuel + 1, c :: cs =>
    match matchWarnAt (c :: cs) with
    | some (g, rest) => String.mk g :: warnFindAll fuel rest
    | none => warnFindAll fuel cs

/-- All group(1) captures of RE_ALREADY_PATCHED over the output. -/
def already_patched (output : String) : List String :=
  warnFindAll output.toList.length output.toList

def dedupAux (seen : List String) : List String → List String
  | [] => []
  | x :: xs => if seen.contains x then dedupAux seen xs else x :: dedupAux (seen ++ [x]) xs

/-- The source collects the already-patched groups into a Python set before
joining; modelled as first-occurrence deduplication (the iteration order of a
Python set is not specified — the claims only evaluate outputs with at most
one distinct capture). -/
def dedupKeepFirst (l : List String) : List String := dedupAux [] l

/-- src/ccb/update/common.py get_test_details. -/
def get_test_details (output : String) : String :=
  let hooks := hook_errors output
  if hooks.isEmpty then
    match firstSome RE_TEST_ERRORS (fun f => f output) with
    | some g => g
    | none =>
      let patches := dedupKeepFirst (already_patched output)
      if patches.isEmpty then "no details"
      else "Patch already applied:\n" ++ joinNL patches
  else "Hook validation failed:\n" ++ joinNL hooks

/-! ## src/ccb/project_specifics.py — tag allow/deny rules -/

/-- TAGS_BLACKLIST[0]: (.*)[\._-]?(rc|alpha|beta|pre|preview)[\._-]?[0-9]*$
with re.IGNORECASE.  Here the class [\._-] is the literal three-character set.
After the keyword: an optional separator, then only digits up to the end. -/
def rcTail (t : List Char) : Bool :=
  t.all Char.isDigit ||
  (match t with
   | c :: r => (c = '.' || c = '_' || c = '-') && r.all Char.isDigit
   | [] => true)

def rcKeywords : List String := ["rc", "alpha", "beta", "pre", "preview"]

/-- The leading (.*) and the optional separator before the keyword make the
anchoring vacuous: the pattern matches exactly when some suffix is
keyword-separator?-digits*-end. -/
def deny_rc (tag : String) : Bool :=
  anySuffix
    (fun suf =>
      rcKeywords.any fun kw =>
        match ciStrip suf kw.toList with
        | some rest => rcTail rest
        | none => false)
    tag.toList

/-- TAGS_BLACKLIST[1]: (.*)test(.*) with re.IGNORECASE — a case-insensitive
substring test. -/
def deny_test_tags (tag : String) : Bool :=
  anySuffix (fun suf => (ciStrip suf "test".toList).isSome) tag.toList

/-- The global tag blacklist of project_specifics.py. -/
def TAGS_BLACKLIST : List (String → Bool) := [deny_rc, deny_test_tags]

/-- A whitelist entry of the shape ^releases\/(.*) (as used for coin-clp,
coin-osi, coin-utils): regex.match anchors at the start. -/
def wl_releases (tag : String) : Bool := strStarts tag.toList "releases/".toList

/-! ## src/ccb/upstream_project.py — tag filtering and version discovery -/

/-- GitProject._valid_tags: with a whitelist, keep exactly the tags matching
some whitelist pattern; otherwise drop exactly the tags matching some
blacklist pattern. -/
def valid_tags (whitelist blacklist : List (String → Bool)) (tag : String) : Bool :=
  match whitelist with
  | [] => !(blacklist.any fun r => r tag)
  | _ :: _ => whitelist.any fun r => r tag

/-! ## src/ccb/subprocess.py and upstream discovery failure behaviour -/

/-- A raised Python condition: either an Exception subclass (caught by
"except Exception") or a SystemExit (raised by exit(), NOT an Exception
subclass, so it escapes "except Exception" handlers). -/
inductive PyErr where
  | exc (msg : String)
  | systemExit (code : Int)
deriving DecidableEq

def PyErr.isException : PyErr → Bool
  | .exc _ => true
  | .systemExit _ => false

/-- src/ccb/subprocess.py check_call: on a nonzero exit code the source prints
an error message and calls exit(-1), which raises SystemExit(-1); the
"raise SubprocessError(process)" on the next line is unreachable. -/
def check_call (exitCode : Int) : Except PyErr Unit :=
  if exitCode = 0 then .ok () else .error (.systemExit (-1))

/-- GitProject._clone_and_parse_git_repo / _parse_git_repo: clone the
repository (check_call on the git clone exit code), then build one Version per
surviving tag (GitProject._parse_tags filters through _valid_tags; the
per-tag date and commit-count metadata are not modelled). -/
def clone_and_parse_git_repo (cloneExit : Int) (tags : List String)
    (whitelist blacklist : List (String → Bool)) : Except PyErr (List Version) :=
  match check_call cloneExit with
  | .error e => .error e
  | .ok _ => .ok ((tags.filter (valid_tags whitelist blacklist)).map mkVersion)

/-- GitProject.versions: the body runs _clone_and_parse_git_repo under
"except Exception", converting any Exception into the empty version list; a
SystemExit is not an Exception and propagates. -/
def git_project_versions (cloneExit : Int) (tags : List String)
    (whitelist blacklist : List (String → Bool)) : Except PyErr (List Version) :=
  match clone_and_parse_git_repo cloneExit tags whitelist blacklist with
  | .ok vs => .ok vs
  | .error e => if e.isException then .ok [] else .error e

/-- GnomeProject.source_url: None for an unknown version; otherwise unpack
"major, minor, patch = version.original.split(".")" — which raises ValueError
unless the split has exactly three components — and build the tarball URL. -/
def gnome_source_url (domain project : String) (v : Version) : Except PyErr (Option String) :=
  if v.unknown then .ok none
  else
    match (splitOnChar '.' v.original.toList).map String.mk with
    | [major, minor, patch] =>
      .ok (some ("https://" ++ domain ++ "/sources/" ++ project ++ "/" ++ major ++ "."
        ++ minor ++ "/" ++ project ++ "-" ++ major ++ "." ++ minor ++ "." ++ patch
        ++ ".tar.xz"))
    | _ => .error (.exc "ValueError")

/-! ## src/ccb/update/common.py — pipeline data model and update_one_recipe -/

/-- TestStatus (the wall-clock duration field is not modelled). -/
structure TestStatus where
  success : Bool
  error : Option String
deriving DecidableEq

/-- UpdateStatus. -/
structure UpdateStatus where
  updated : Bool
  test_status : Option TestStatus
  branch_name : Option String
  branch_remote_owner : Option String
  branch_remote_repo : Option String
  details : Option String
deriving DecidableEq

/-- The observable side effects of one pipeline run, in order. -/
inductive PipelineAction where
  | acquireWorktree
  | patchCmakelists
  | addVersionFiles
  | runValidator
  | removeLocalBranch
  | createBranchAndCommit
  | pushBranch
deriving DecidableEq

/-- src/ccb/update/common.py test_recipe, as a function of the validator's
exit code and combined output: nonzero exit is a failure with the extracted
detail; exit 0 still fails when RE_CREATE_ERRORS (the already-patched warning)
matches the output. -/
def test_recipe (exitCode : Int) (output : String) : TestStatus :=
  if exitCode ≠ 0 then { success := false, error := some (get_test_details output) }
  else if !(already_patched output).isEmpty then
    { success := false, error := some (get_test_details output) }
  else { success := true, error := none }

/-- The branch-and-push tail of update_one_recipe: create the branch and
commit, then push when a remote is configured (resolving owner and repo). -/
def commitAndPush (ts : Option TestStatus) (push_to : Option String)
    (ownerRepo : String × String) (branch_name : String) (acts : List PipelineAction) :
    UpdateStatus × List PipelineAction :=
  match push_to with
  | some _ =>
    ({ updated := true, test_status := ts, branch_name := some branch_name,
       branch_remote_owner := some ownerRepo.1, branch_remote_repo := some ownerRepo.2,
       details := none },
     acts ++ [PipelineAction.createBranchAndCommit, PipelineAction.pushBranch])
  | none =>
    ({ updated := true, test_status := ts, branch_name := some branch_name,
       branch_remote_owner := none, branch_remote_repo := none, details := none },
     acts ++ [PipelineAction.createBranchAndCommit])

/-- src/ccb/update/common.py update_one_recipe: inside a worktree, patch the
CMake minimum version and run add_version; optionally run the validator; on a
validation failure return updated=false with the extracted detail and stop
(no branch, no commit, no push); otherwise branch+commit and optionally push.
The validator is characterised by its exit code and combined output. -/
def update_one_recipe (run_test : Bool) (validatorExit : Int) (validatorOutput : String)
    (push_to : Option String) (ownerRepo : String × String) (branch_name : String) :
    UpdateStatus × List PipelineAction :=
  let base := [PipelineAction.acquireWorktree, PipelineAction.patchCmakelists, PipelineAction.addVersionFiles]
  if run_test then
    let ts := test_recipe validatorExit validatorOutput
    if !ts.success then
      ({ updated := false, test_status := some ts, branch_name := some branch_name,
         branch_remote_owner := none, branch_remote_repo := none, details := ts.error },
       base ++ [PipelineAction.runValidator])
    else commitAndPush (some ts) push_to ownerRepo branch_name (base ++ [PipelineAction.runValidator])
  else commitAndPush none push_to ownerRepo branch_name base

/-- Insert an element at a position, Python list.insert semantics (clamping a
position past the end to an append) — ruamel CommentedMap.insert positions
keys the same way. -/
def insertAt : Nat → α → List α → List α
  | 0, x, l => x :: l
  | _ + 1, x, [] => [x]
  | n + 1, x, y :: ys => y :: insertAt n x ys

/-- Last element of d :: l. -/
def lastD (d : String) : List String → String
  | [] => d
  | x :: xs => lastD x xs

/-- src/ccb/update/common.py smart_insert (nested in add_version): detect the
direction from the first and last existing keys, then insert before the first
key that compares beyond the new key in that direction, defaulting to the end.
An empty container raises IndexError on container_keys[0] (None here). -/
def smart_insert {α : Type} (container : List (String × α)) (key : String) (value : α) :
    Option (List (String × α)) :=
  match container with
  | [] => none
  | first :: rest =>
    let ascending := Version.lt (mkVersion first.1) (mkVersion (lastD first.1 (rest.map Prod.fst)))
    if ascending then
      some (insertAt
        ((first :: rest).findIdx fun kv => Version.gt (mkVersion kv.1) (mkVersion key))
        (key, value) (first :: rest))
    else
      some (insertAt
        ((first :: rest).findIdx fun kv => Version.lt (mkVersion kv.1) (mkVersion key))
        (key, value) (first :: rest))

/-! ## src/ccb/recipe.py — open pull request matching -/

/-- An open pull request as consumed from the paginated listing: title and
body may be missing (the source guards with 'pr.get("body") or ""'). -/
structure PullReq where
  title : Option String
  body : Option String
  html_url : String
  number : Nat
deriving DecidableEq

structure LibPullRequest where
  library : String
  version : String
  url : String
  number : Nat
deriving DecidableEq

/-- Matching of the dynamically built patterns name + "/" + fixed (body) and
name + ".*" + fixed (title): a mini regex matcher where "." matches any
character and "*" is zero-or-more of the preceding atom — the only regex
metacharacters occurring in recipe names and fixed version strings.  Fueled;
every recursive call decreases the combined length of pattern and subject, so
the initial sum plus one is sufficient fuel. -/
def reMatchFuel : Nat → List Char → List Char → Bool
  | 0, _, _ => false
  | _ + 1, [], _ => true
  | fuel + 1, p :: '*' :: ps, s =>
    reMatchFuel fuel ps s ||
    (match s with
     | [] => false
     | c :: cs => (p = '.' || p = c) && reMatchFuel fuel (p :: '*' :: ps) cs)
  | _ + 1, _ :: _, [] => false
  | fuel + 1, p :: ps, c :: cs => (p = '.' || p = c) && reMatchFuel fuel ps cs

def reSearch (pattern subject : String) : Bool :=
  anySuffix (fun suf => reMatchFuel (pattern.length + subject.length + 1) pattern.toList suf)
    subject.toList

/-- VersionedRecipe.prs_opened_for: keep the pull requests whose body matches
name/fixed or whose title matches name.*fixed. -/
def prs_opened_for (name : String) (upstream_version : Version) (prs : List PullReq) :
    List LibPullRequest :=
  (prs.filter fun pr =>
      reSearch (name ++ "/" ++ upstream_version.fixed) (pr.body.getD "") ||
      reSearch (name ++ ".*" ++ upstream_version.fixed) (pr.title.getD "")).map
    fun pr =>
      { library := name, version := upstream_version.fixed, url := pr.html_url,
        number := pr.number }

/-! ## src/ccb/update/auto.py — the automatic per-recipe pipeline -/

/-- auto_update_one_recipe, as a function of the recipe facts it consults.
The branch name is branch_prefix + name + "-" + fixed.  Gates in source
order: deprecation, updatability, open-PR, remote-branch; then the guarded
update_one_recipe call (run_test=True, force_push=True).  The surrounding
"except Exception" and the concurrency semaphore are not modelled. -/
def auto_update_one_recipe (name : String) (deprecated : Bool)
    (recipeVersion newUpstream : Version) (prs : List PullReq)
    (prefixStr : String) (push_to : Option String) (rebuild_if_exists : Bool)
    (remoteBranchExists localBranchExists : Bool)
    (validatorExit : Int) (validatorOutput : String) (ownerRepo : String × String) :
    UpdateStatus × List PipelineAction :=
  let branch_name := prefixStr ++ name ++ "-" ++ newUpstream.fixed
  if deprecated then
    ({ updated := false, test_status := none, branch_name := none,
       branch_remote_owner := none, branch_remote_repo := none,
       details := some "recipe is deprecated" }, [])
  else if !(updatable_to recipeVersion newUpstream) then
    ({ updated := false, test_status := none, branch_name := none,
       branch_remote_owner := none, branch_remote_repo := none,
       details := some "recipe is not updatable" }, [])
  else if !(prs_opened_for name newUpstream prs).isEmpty then
    ({ updated := false, test_status := none, branch_name := none,
       branch_remote_owner := none, branch_remote_repo := none,
       details := some "PR exists" }, [])
  else if remoteBranchExists then
    if rebuild_if_exists then
      let pre := if localBranchExists then [PipelineAction.removeLocalBranch] else []
      let r := update_one_recipe true validatorExit validatorOutput push_to ownerRepo branch_name
      (r.1, pre ++ r.2)
    else
      ({ updated := true, test_status := some { success := true, error := none },
         branch_name := some branch_name, branch_remote_owner := some ownerRepo.1,
         branch_remote_repo := some ownerRepo.2, details := none }, [])
  else
    update_one_recipe true validatorExit validatorOutput push_to ownerRepo branch_name

/-! ## src/ccb/update/manual.py — the manual per-recipe pipeline -/

/-- The error kinds of the spec's failure taxonomy relevant to the manual
pipeline.  UpstreamNotSupported and RecipeNotUpdatable are raised by
get_most_recent_upstream_version in the source; branchAlreadyExists is
modelled from the spec's taxonomy ("BranchAlreadyExists (local or remote
collision, not force-overridden)") — the update package defines no such
error class. -/
inductive UpdateErrorKind where
  | upstreamNotSupported
  | recipeNotUpdatable
  | branchAlreadyExists
deriving DecidableEq

/-- What a manual_update_one_recipe invocation can end in: a bare "return"
(the source returns None), a completed update with its UpdateStatus, or a
raised error. -/
inductive ManualOutcome where
  | returnedNone
  | finished (s : UpdateStatus)
  | raisedError (e : UpdateErrorKind)
deriving DecidableEq

/-- The remote-branch gate and the final update call of
manual_update_one_recipe. -/
def manualRemoteGate (force_push : Bool) (push_to : Option String)
    (remoteBranchExists answerRemote : Bool) (inner : UpdateStatus × List PipelineAction)
    (acts : List PipelineAction) : ManualOutcome × List PipelineAction :=
  if push_to.isSome && remoteBranchExists then
    let fp := if force_push then true else answerRemote
    if !fp then (ManualOutcome.returnedNone, acts)
    else (ManualOutcome.finished inner.1, acts ++ inner.2)
  else (ManualOutcome.finished inner.1, acts ++ inner.2)

/-- src/ccb/update/manual.py manual_update_one_recipe, from the point where
the upstream version is resolved (the preceding resolution can raise
UpstreamNotSupported / RecipeNotUpdatable, never a branch error).  If the
local branch exists and force is false, the user is asked (yn_question,
modelled by answerLocal); if still not forced the function plainly returns
None.  If forced, the branch is removed and the pipeline continues with the
remote gate (answerRemote models the second prompt) and the update call,
whose outcome is the inner parameter. -/
def manual_update_one_recipe (branchExists force answerLocal : Bool)
    (push_to : Option String) (remoteBranchExists answerRemote : Bool)
    (inner : UpdateStatus × List PipelineAction) : ManualOutcome × List PipelineAction :=
  if branchExists then
    let f1 := if force then true else answerLocal
    if !f1 then (ManualOutcome.returnedNone, [])
    else manualRemoteGate f1 push_to remoteBranchExists answerRemote inner
      [PipelineAction.removeLocalBranch]
  else manualRemoteGate force push_to remoteBranchExists answerRemote inner []

/-! ## Auxiliary executable predicates used by the theorems -/

/-- Every consecutive pair of the list satisfies the relation. -/
def chainB (R : String → String → Bool) : List String → Bool
  | [] => true
  | [_] => true
  | a :: b :: rest => R a b && chainB R (b :: rest)

/-- Strictly ascending keys under the parsed-version order. -/
def keysAscending (ks : List String) : Bool :=
  chainB (fun a b => Version.lt (mkVersion a) (mkVersion b)) ks

/-- Strictly descending keys under the parsed-version order. -/
def keysDescending (ks : List String) : Bool :=
  chainB (fun a b => Version.lt (mkVersion b) (mkVersion a)) ks

/-- The key parses to a version with a numeric form of the given date
classification. -/
def numKindB (d : Bool) (s : String) : Bool :=
  (mkVersion s).to_numeric.isSome && ((mkVersion s).is_date == d)

/-- Insert before the first element satisfying the predicate (or at the end):
the composite of findIdx and insertAt that smart_insert performs. -/
def insertWhere {α : Type} (p : α → Bool) (x : α) : List α → List α
  | [] => [x]
  | y :: ys => if p y then x :: y :: ys else y :: insertWhere p x ys

/-! ## Claim theorems -/

/-- C1: the claim says any upstream discovery error is caught per recipe,
yielding an empty version set without aborting the batch.  The code is wrong:
check_call handles a failing git clone by calling exit(-1), raising
SystemExit, which the per-recipe "except Exception" in GitProject.versions
does not catch (the intended "raise SubprocessError" is unreachable dead
code), so a clone failure terminates the whole process instead of producing
an empty version set. -/
theorem c1_git_versions_abort_on_clone_failure
    (cloneExit : Int) (tags : List String) (whitelist blacklist : List (String → Bool))
    (h : cloneExit ≠ 0) :
    git_project_versions cloneExit tags whitelist blacklist
        = Except.error (PyErr.systemExit (-1)) ∧
      git_project_versions cloneExit tags whitelist blacklist ≠ Except.ok [] := by
  have hc : check_call cloneExit = Except.error (PyErr.systemExit (-1)) := by
    simp [check_call, h]
  refine ⟨?_, ?_⟩ <;>
    simp [git_project_versions, clone_and_parse_git_repo, hc, PyErr.isException]

theorem c1_witness :
    git_project_versions 128 [] [] [] = Except.error (PyErr.systemExit (-1)) :=
  (c1_git_versions_abort_on_clone_failure 128 [] [] [] (by decide)).1

/-- C2: with validation enabled, a validator failure makes update_one_recipe
return updated=false carrying the extracted detail as details, and the
pipeline neither creates a branch, nor commits, nor pushes. -/
theorem c2_validation_failure_stops_pipeline
    (validatorExit : Int) (validatorOutput : String) (push_to : Option String)
    (ownerRepo : String × String) (branch_name : String)
    (h : (test_recipe validatorExit validatorOutput).success = false) :
    (update_one_recipe true validatorExit validatorOutput push_to ownerRepo branch_name).1.updated
        = false ∧
      (update_one_recipe true validatorExit validatorOutput push_to ownerRepo branch_name).1.details
        = some (get_test_details validatorOutput) ∧
      PipelineAction.createBranchAndCommit
        ∉ (update_one_recipe true validatorExit validatorOutput push_to ownerRepo branch_name).2 ∧
      PipelineAction.pushBranch
        ∉ (update_one_recipe true validatorExit validatorOutput push_to ownerRepo branch_name).2 := by
  have herr : (test_recipe validatorExit validatorOutput).error
      = some (get_test_details validatorOutput) := by
    unfold test_recipe at h ⊢
    by_cases h1 : validatorExit ≠ 0
    · simp [h1]
    · simp only [h1, if_false] at h ⊢
      by_cases h2 : (already_patched validatorOutput).isEmpty
      · simp [h2] at h
      · simp [h2]
  have hres : update_one_recipe true validatorExit validatorOutput push_to ownerRepo branch_name
      = ({ updated := false, test_status := some (test_recipe validatorExit validatorOutput),
           branch_name := some branch_name, branch_remote_owner := none,
           branch_remote_repo := none, details := (test_recipe validatorExit validatorOutput).error },
         [PipelineAction.acquireWorktree, PipelineAction.patchCmakelists,
          PipelineAction.addVersionFiles, PipelineAction.runValidator]) := by
    simp [update_one_recipe, h]
  rw [hres]
  exact ⟨rfl, herr, by simp, by simp⟩

theorem c2_witness :
    (test_recipe 1 "ERROR: boom").success = false ∧
      (update_one_recipe true 1 "ERROR: boom" none ("o", "r") "ccb-foo-1.1.0").1.updated = false ∧
      (update_one_recipe true 1 "ERROR: boom" none ("o", "r") "ccb-foo-1.1.0").1.details
        = some (get_test_details "ERROR: boom") :=
  ⟨by decide,
   (c2_validation_failure_stops_pipeline 1 "ERROR: boom" none ("o", "r") "ccb-foo-1.1.0"
     (by decide)).1,
   (c2_validation_failure_stops_pipeline 1 "ERROR: boom" none ("o", "r") "ccb-foo-1.1.0"
     (by decide)).2.1⟩

/-- C3 (amended): when the local branch exists and force is false, the manual
pipeline — after the overwrite prompt is declined — plainly returns None with
no action taken; no BranchAlreadyExists error kind is raised (none exists in
the update package). -/
theorem c3_branch_collision_returns_none
    (push_to : Option String) (remoteBranchExists answerRemote : Bool)
    (inner : UpdateStatus × List PipelineAction) :
    manual_update_one_recipe true false false push_to remoteBranchExists answerRemote inner
        = (ManualOutcome.returnedNone, []) ∧
      (manual_update_one_recipe true false false push_to remoteBranchExists answerRemote inner).1
        ≠ ManualOutcome.raisedError UpdateErrorKind.branchAlreadyExists := by
  refine ⟨rfl, by simp [manual_update_one_recipe]⟩

/-- C3 counterexample: at a concrete branch collision with force=false, the
pipeline ends in a bare None return — not in the BranchAlreadyExists error
kind the claim asserts (no recipe file is mutated either: the action trace is
empty). -/
theorem c3_counterexample :
    manual_update_one_recipe true false false none false false
        ({ updated := false, test_status := none, branch_name := none,
           branch_remote_owner := none, branch_remote_repo := none, details := none }, [])
        = (ManualOutcome.returnedNone, []) ∧
      (manual_update_one_recipe true false false none false false
          ({ updated := false, test_status := none, branch_name := none,
             branch_remote_owner := none, branch_remote_repo := none, details := none }, [])).1
        ≠ ManualOutcome.raisedError UpdateErrorKind.branchAlreadyExists :=
  ⟨rfl, by decide⟩

/-- C10: for a non-unknown version, GnomeProject.source_url returns a string
exactly when the original string splits on dots into three components; any
other known version raises (ValueError from tuple unpacking) — it never
returns None. -/
theorem c10_gnome_source_url_arity (domain project : String) (v : Version)
    (h : v.unknown = false) :
    ((splitOnChar '.' v.original.toList).length = 3 →
        ∃ s, gnome_source_url domain project v = Except.ok (some s)) ∧
      ((splitOnChar '.' v.original.toList).length ≠ 3 →
        gnome_source_url domain project v = Except.error (PyErr.exc "ValueError")) ∧
      gnome_source_url domain project v ≠ Except.ok none := by
  unfold gnome_source_url
  rw [h]
  simp only [Bool.false_eq_true, if_false]
  have hlen : (splitOnChar '.' v.original.toList).length
      = ((splitOnChar '.' v.original.toList).map String.mk).length := by
    rw [List.length_map]
  rcases hs : (splitOnChar '.' v.original.toList).map String.mk
    with _ | ⟨a, _ | ⟨b, _ | ⟨c, _ | d⟩⟩⟩ <;>
    rw [hlen, hs] <;> simp

theorem c10_witness :
    (mkVersion "1.2.3").unknown = false ∧
      (splitOnChar '.' (mkVersion "1.2.3").original.toList).length = 3 ∧
      ∃ s, gnome_source_url "download.gnome.org" "glib" (mkVersion "1.2.3")
        = Except.ok (some s) :=
  ⟨by decide, by decide,
   (c10_gnome_source_url_arity "download.gnome.org" "glib" (mkVersion "1.2.3")
     (by decide)).1 (by decide)⟩

/-- C4 counterexample: "unknown-garbage" canonicalizes to the UNKNOWN
sentinel, yet its Version has unknown = false — Version.unknown compares the
ORIGINAL string, not the canonical form, against the sentinel. -/
theorem c4_counterexample :
    fix_version "unknown-garbage" = "unknown" ∧
      (mkVersion "unknown-garbage").unknown = false := by
  exact ⟨by decide, by decide⟩

/-- C4 (amended): a raw string whose canonicalization yields the UNKNOWN
sentinel parses to a Version with no numeric form, which compares strictly
older than every version that has a numeric form; its unknown flag is true
exactly when the raw string is literally "unknown". -/
theorem c4_unknown_canonicalization (s t : String)
    (hs : fix_version s = "unknown")
    (ht : (to_numeric (fix_version t)).isSome = true) :
    (mkVersion s).unknown = (s == "unknown") ∧
      Version.lt (mkVersion s) (mkVersion t) = true ∧
      Version.lt (mkVersion t) (mkVersion s) = false := by
  have hnum : (mkVersion s).to_numeric = none := by
    show to_numeric (fix_version s) = none
    rw [hs]
    decide
  obtain ⟨nt, hnt⟩ := Option.isSome_iff_exists.mp ht
  have hnt2 : (mkVersion t).to_numeric = some nt := hnt
  refine ⟨rfl, ?_, ?_⟩
  · unfold Version.lt
    rw [hnt2, hnum]
  · unfold Version.lt
    rw [hnum]

theorem c4_witness :
    fix_version "unknown-garbage" = "unknown" ∧
      (to_numeric (fix_version "1.2.3")).isSome = true ∧
      Version.lt (mkVersion "unknown-garbage") (mkVersion "1.2.3") = true ∧
      Version.lt (mkVersion "1.2.3") (mkVersion "unknown-garbage") = false :=
  ⟨by decide, by decide,
   (c4_unknown_canonicalization "unknown-garbage" "1.2.3" (by decide) (by decide)).2.1,
   (c4_unknown_canonicalization "unknown-garbage" "1.2.3" (by decide) (by decide)).2.2⟩

/-- C5 counterexample: "20230101" (date-classified) and "garbage"
(not date-classified) are both non-unknown, yet in the underlying order the
date-classified version is treated as the NEWER one, because the non-date
version has no numeric form — refuting the claim over all non-unknown
pairs. -/
theorem c5_counterexample :
    (mkVersion "20230101").unknown = false ∧
      (mkVersion "garbage").unknown = false ∧
      (mkVersion "20230101").is_date = true ∧
      (mkVersion "garbage").is_date = false ∧
      Version.lt (mkVersion "20230101") (mkVersion "garbage") = false ∧
      Version.lt (mkVersion "garbage") (mkVersion "20230101") = true := by
  decide

/-- C5 (amended): for every pair of non-unknown versions of which exactly one
is date-classified, inconsistent is true and updatable false in both
directions; when both versions have numeric forms the date-classified version
is strictly older; when the non-date version has no numeric form it is
instead ordered below the date version.  The concrete recipe "1.2.3" against
upstream "20230101" case is the witness. -/
theorem c5_date_mismatch_inconsistent (a b : Version)
    (ha : a.unknown = false) (hb : b.unknown = false)
    (hda : a.is_date = true) (hdb : b.is_date = false) :
    inconsistent_with a b = true ∧ inconsistent_with b a = true ∧
      updatable_to a b = false ∧ updatable_to b a = false ∧
      (a.to_numeric.isSome = true → b.to_numeric.isSome = true →
        Version.lt a b = true ∧ Version.lt b a = false) ∧
      (b.to_numeric = none →
        Version.lt a b = false ∧
          (a.to_numeric.isSome = true → Version.lt b a = true)) := by
  refine ⟨?_, ?_, ?_, ?_, ?_, ?_⟩
  · simp [inconsistent_with, ha, hb, hda, hdb]
  · simp [inconsistent_with, ha, hb, hda, hdb]
  · simp [updatable_to, consistent_with, ha, hb, hda, hdb]
  · simp [updatable_to, consistent_with, ha, hb, hda, hdb]
  · intro hna hnb
    obtain ⟨na, hna2⟩ := Option.isSome_iff_exists.mp hna
    obtain ⟨nb, hnb2⟩ := Option.isSome_iff_exists.mp hnb
    refine ⟨?_, ?_⟩
    · unfold Version.lt
      rw [hna2, hnb2]
      simp [hda, hdb]
    · unfold Version.lt
      rw [hna2, hnb2]
      simp [hda, hdb]
  · intro hbn
    refine ⟨?_, ?_⟩
    · unfold Version.lt
      rw [hbn]
    · intro hna
      obtain ⟨na, hna2⟩ := Option.isSome_iff_exists.mp hna
      unfold Version.lt
      rw [hna2, hbn]

theorem c5_witness :
    inconsistent_with (mkVersion "1.2.3") (mkVersion "20230101") = true ∧
      updatable_to (mkVersion "1.2.3") (mkVersion "20230101") = false ∧
      Version.lt (mkVersion "20230101") (mkVersion "1.2.3") = true ∧
      Version.lt (mkVersion "1.2.3") (mkVersion "20230101") = false ∧
      Version.lt (mkVersion "20230101") (mkVersion "garbage") = false ∧
      Version.lt (mkVersion "garbage") (mkVersion "20230101") = true :=
  ⟨(c5_date_mismatch_inconsistent (mkVersion "20230101") (mkVersion "1.2.3")
      (by decide) (by decide) (by decide) (by decide)).2.1,
   (c5_date_mismatch_inconsistent (mkVersion "20230101") (mkVersion "1.2.3")
      (by decide) (by decide) (by decide) (by decide)).2.2.2.1,
   ((c5_date_mismatch_inconsistent (mkVersion "20230101") (mkVersion "1.2.3")
      (by decide) (by decide) (by decide) (by decide)).2.2.2.2.1 (by decide) (by decide)).1,
   ((c5_date_mismatch_inconsistent (mkVersion "20230101") (mkVersion "1.2.3")
      (by decide) (by decide) (by decide) (by decide)).2.2.2.2.1 (by decide) (by decide)).2,
   ((c5_date_mismatch_inconsistent (mkVersion "20230101") (mkVersion "garbage")
      (by decide) (by decide) (by decide) (by decide)).2.2.2.2.2 (by decide)).1,
   ((c5_date_mismatch_inconsistent (mkVersion "20230101") (mkVersion "garbage")
      (by decide) (by decide) (by decide) (by decide)).2.2.2.2.2 (by decide)).2 (by decide)⟩

/-- C9 (amended): when the recipe is not deprecated and is updatable to the
target version, an open pull request matching the recipe name and target
version makes auto_update_one_recipe return UpdateStatus(updated=false,
details="PR exists") with an empty action trace: no worktree acquired, no
file modified, validator never invoked. -/
theorem c9_pr_gate_skips (name : String) (recipeVersion newUpstream : Version)
    (prs : List PullReq) (prefixStr : String) (push_to : Option String)
    (rebuild_if_exists remoteBranchExists localBranchExists : Bool)
    (validatorExit : Int) (validatorOutput : String) (ownerRepo : String × String)
    (hupd : updatable_to recipeVersion newUpstream = true)
    (hpr : (prs_opened_for name newUpstream prs).isEmpty = false) :
    auto_update_one_recipe name false recipeVersion newUpstream prs prefixStr push_to
        rebuild_if_exists remoteBranchExists localBranchExists validatorExit
        validatorOutput ownerRepo
      = ({ updated := false, test_status := none, branch_name := none,
           branch_remote_owner := none, branch_remote_repo := none,
           details := some "PR exists" }, []) := by
  simp [auto_update_one_recipe, hupd, hpr]

/-- C9 counterexample: a deprecated recipe with a matching open pull
request is rejected by the earlier deprecation gate, so the pipeline returns
details "recipe is deprecated", not "PR exists" — the claim as stated (for
every recipe with a matching PR) fails. -/
theorem c9_counterexample :
    (prs_opened_for "foo" (mkVersion "1.1.0")
        [{ title := some "foo: add version 1.1.0", body := none, html_url := "u",
           number := 3 }]).isEmpty = false ∧
      auto_update_one_recipe "foo" true (mkVersion "1.0.0") (mkVersion "1.1.0")
          [{ title := some "foo: add version 1.1.0", body := none, html_url := "u",
             number := 3 }] "ccb-" none false false false 0 "" ("o", "r")
        = ({ updated := false, test_status := none, branch_name := none,
             branch_remote_owner := none, branch_remote_repo := none,
             details := some "recipe is deprecated" }, []) ∧
      (auto_update_one_recipe "foo" true (mkVersion "1.0.0") (mkVersion "1.1.0")
          [{ title := some "foo: add version 1.1.0", body := none, html_url := "u",
             number := 3 }] "ccb-" none false false false 0 "" ("o", "r")).1.details
        ≠ some "PR exists" := by
  refine ⟨by decide, by decide, by decide⟩

theorem c9_witness :
    updatable_to (mkVersion "1.0.0") (mkVersion "1.1.0") = true ∧
      (prs_opened_for "foo" (mkVersion "1.1.0")
          [{ title := some "foo: add version 1.1.0", body := none, html_url := "u",
             number := 3 }]).isEmpty = false ∧
      auto_update_one_recipe "foo" false (mkVersion "1.0.0") (mkVersion "1.1.0")
          [{ title := some "foo: add version 1.1.0", body := none, html_url := "u",
             number := 3 }] "ccb-" (some "origin") false true true 1 "ERROR: x" ("o", "r")
        = ({ updated := false, test_status := none, branch_name := none,
             branch_remote_owner := none, branch_remote_repo := none,
             details := some "PR exists" }, []) :=
  ⟨by decide, by decide,
   c9_pr_gate_skips "foo" (mkVersion "1.0.0") (mkVersion "1.1.0")
     [{ title := some "foo: add version 1.1.0", body := none, html_url := "u", number := 3 }]
     "ccb-" (some "origin") false true true 1 "ERROR: x" ("o", "r") (by decide) (by decide)⟩

/-- C7: a tag survives _valid_tags exactly when: with a per-project
allow-list, it matches some allow pattern; without one, it matches no pattern
of the global-plus-project deny list.  Concretely: with no allow-list,
"v2.0.0-rc1" is dropped by the global deny pattern; with the ^releases/
allow-list, "releases/1.0" is kept and "v1.0" dropped. -/
theorem c7_tag_survival :
    (∀ (whitelist blacklist : List (String → Bool)) (tag : String),
        whitelist ≠ [] →
        (valid_tags whitelist blacklist tag = true ↔ ∃ r ∈ whitelist, r tag = true)) ∧
      (∀ (blacklist : List (String → Bool)) (tag : String),
        valid_tags [] blacklist tag = true ↔ ∀ r ∈ blacklist, r tag = false) ∧
      valid_tags [] TAGS_BLACKLIST "v2.0.0-rc1" = false ∧
      valid_tags [wl_releases] TAGS_BLACKLIST "releases/1.0" = true ∧
      valid_tags [wl_releases] TAGS_BLACKLIST "v1.0" = false := by
  refine ⟨?_, ?_, by decide, by decide, by decide⟩
  · intro wl bl tag h
    cases wl with
    | nil => exact absurd rfl h
    | cons w ws =>
      simp [valid_tags, List.any_eq_true]
  · intro bl tag
    simp [valid_tags, List.any_eq_true]

theorem c7_witness :
    (valid_tags [wl_releases] [] "releases/2.0" = true
        ↔ ∃ r ∈ [wl_releases], r "releases/2.0" = true) ∧
      (valid_tags [] TAGS_BLACKLIST "v3.1" = true
        ↔ ∀ r ∈ TAGS_BLACKLIST, r "v3.1" = false) :=
  ⟨c7_tag_survival.1 [wl_releases] [] "releases/2.0" (List.cons_ne_nil _ _),
   c7_tag_survival.2.1 TAGS_BLACKLIST "v3.1"⟩

theorem lexLt_irrefl : ∀ l : List Nat, lexLt l l = false := by
  intro l
  induction l with
  | nil => rfl
  | cons a as ih => simp [lexLt, ih]

theorem lexLt_trans : ∀ a b c : List Nat,
    lexLt a b = true → lexLt b c = true → lexLt a c = true := by
  intro a
  induction a with
  | nil =>
    intro b c _ hbc
    cases c with
    | nil => cases b <;> simp [lexLt] at hbc
    | cons z zs => simp [lexLt]
  | cons x xs ih =>
    intro b c hab hbc
    cases b with
    | nil => simp [lexLt] at hab
    | cons y ys =>
      cases c with
      | nil => simp [lexLt] at hbc
      | cons z zs =>
        simp only [lexLt] at hab hbc ⊢
        by_cases h1 : x < y
        · by_cases h2 : y < z
          · simp [Nat.lt_trans h1 h2]
          · simp only [h2, if_false] at hbc
            by_cases h3 : y = z
            · subst h3; simp [h1]
            · simp [h3] at hbc
        · simp only [h1, if_false] at hab
          by_cases h4 : x = y
          · subst h4
            simp only [if_pos rfl] at hab
            by_cases h2 : x < z
            · simp [h2]
            · simp only [h2, if_false] at hbc ⊢
              by_cases h3 : x = z
              · subst h3
                simp only [if_pos rfl] at hbc ⊢
                exact ih _ _ hab hbc
              · simp [h3] at hbc
          · simp [h4] at hab

theorem lexLt_connex : ∀ a b : List Nat, lexLt a b = false → a ≠ b → lexLt b a = true := by
  intro a
  induction a with
  | nil =>
    intro b h hne
    cases b with
    | nil => exact absurd rfl hne
    | cons y ys => simp [lexLt] at h
  | cons x xs ih =>
    intro b h hne
    cases b with
    | nil => simp [lexLt]
    | cons y ys =>
      simp only [lexLt] at h ⊢
      by_cases h1 : x < y
      · simp [h1] at h
      · by_cases h2 : y < x
        · simp [h2]
        · have hxy : x = y := Nat.le_antisymm (Nat.le_of_not_lt h2) (Nat.le_of_not_lt h1)
          subst hxy
          simp only [h1, if_false, if_pos rfl] at h ⊢
          apply ih
          · exact h
          · intro hEq
            exact hne (by rw [hEq])

theorem version_lt_irrefl (v : Version) : Version.lt v v = false := by
  unfold Version.lt
  cases v.to_numeric with
  | none => rfl
  | some n => simp [lexLt_irrefl]

theorem version_lt_none_right (a b : Version) (hb : b.to_numeric = none) :
    Version.lt a b = false := by
  unfold Version.lt
  rw [hb]

theorem version_lt_none_left (a b : Version) (nb : List Nat)
    (ha : a.to_numeric = none) (hb : b.to_numeric = some nb) :
    Version.lt a b = true := by
  unfold Version.lt
  rw [hb, ha]

theorem version_lt_some (a b : Version) (na nb : List Nat)
    (ha : a.to_numeric = some na) (hb : b.to_numeric = some nb) :
    Version.lt a b = if a.is_date = b.is_date then lexLt na nb else a.is_date := by
  unfold Version.lt
  rw [hb, ha]

theorem version_lt_trans (a b c : Version) (hab : Version.lt a b = true)
    (hbc : Version.lt b c = true) : Version.lt a c = true := by
  rcases hc : c.to_numeric with _ | nc
  · rw [version_lt_none_right b c hc] at hbc
    exact absurd hbc (by simp)
  · rcases hb : b.to_numeric with _ | nb
    · rw [version_lt_none_right a b hb] at hab
      exact absurd hab (by simp)
    · rcases ha : a.to_numeric with _ | na
      · exact version_lt_none_left a c nc ha hc
      · rw [version_lt_some a b na nb ha hb] at hab
        rw [version_lt_some b c nb nc hb hc] at hbc
        rw [version_lt_some a c na nc ha hc]
        by_cases h1 : a.is_date = b.is_date <;> by_cases h2 : b.is_date = c.is_date
        · rw [if_pos h1] at hab
          rw [if_pos h2] at hbc
          rw [if_pos (h1.trans h2)]
          exact lexLt_trans _ _ _ hab hbc
        · rw [if_pos h1] at hab
          rw [if_neg h2] at hbc
          rw [if_neg (fun heq : a.is_date = c.is_date => h2 (h1.symm.trans heq))]
          rw [h1]
          exact hbc
        · rw [if_neg h1] at hab
          rw [if_neg (fun heq : a.is_date = c.is_date => h1 (heq.trans h2.symm))]
          exact hab
        · rw [if_neg h1] at hab
          rw [if_neg h2] at hbc
          exact absurd (hab.trans hbc.symm) h1

theorem chainB_tail (R : String → String → Bool) (a : String) (l : List String)
    (h : chainB R (a :: l) = true) : chainB R l = true := by
  cases l with
  | nil => rfl
  | cons b t =>
    simp only [chainB, Bool.and_eq_true] at h
    exact h.2

theorem chainB_cons_iff (R : String → String → Bool) (a : String) (l : List String) :
    chainB R (a :: l) = true ↔ chainB R l = true ∧ ∀ b ∈ l.head?, R a b = true := by
  cases l with
  | nil => simp [chainB]
  | cons b t =>
    simp only [chainB, Bool.and_eq_true, List.head?_cons, Option.mem_def,
      Option.some.injEq]
    constructor
    · rintro ⟨h1, h2⟩
      exact ⟨h2, fun x hx => hx ▸ h1⟩
    · rintro ⟨h1, h2⟩
      exact ⟨h2 b rfl, h1⟩

theorem chainB_last (R : String → String → Bool)
    (htrans : ∀ x y z, R x y = true → R y z = true → R x z = true) :
    ∀ (l : List String) (a : String), chainB R (a :: l) = true → l ≠ [] →
      R a (lastD a l) = true := by
  intro l
  induction l with
  | nil => intro a _ hne; exact absurd rfl hne
  | cons b t ih =>
    intro a h _
    have hab : R a b = true := by
      simp only [chainB, Bool.and_eq_true] at h
      exact h.1
    have htl : chainB R (b :: t) = true := by
      simp only [chainB, Bool.and_eq_true] at h
      exact h.2
    cases t with
    | nil => exact hab
    | cons c u => exact htrans a b _ hab (ih b htl (by simp))

theorem insertAt_findIdx {α : Type} (p : α → Bool) (x : α) :
    ∀ l : List α, insertAt (l.findIdx p) x l = insertWhere p x l := by
  intro l
  induction l with
  | nil => rfl
  | cons y ys ih =>
    by_cases h : p y
    · simp [List.findIdx_cons, h, insertAt, insertWhere]
    · simp [List.findIdx_cons, h, insertAt, insertWhere, ih]

theorem chainB_insertWhere {α : Type} (R : String → String → Bool) (q : String → Bool)
    (key : String) (val : α) :
    ∀ (l : List (String × α)),
      chainB R (l.map Prod.fst) = true →
      (∀ s ∈ l.map Prod.fst, (q s = false → R s key = true) ∧ (q s = true → R key s = true)) →
      chainB R ((insertWhere (fun kv => q kv.1) (key, val) l).map Prod.fst) = true := by
  intro l
  induction l with
  | nil => intro _ _; rfl
  | cons kv t ih =>
    intro hchain hfacts
    have hk := hfacts kv.1 (by simp)
    by_cases hq : q kv.1
    · have : insertWhere (fun kv : String × α => q kv.1) (key, val) (kv :: t)
          = (key, val) :: kv :: t := by
        simp [insertWhere, hq]
      rw [this]
      simp only [List.map_cons]
      rw [chainB_cons_iff]
      refine ⟨hchain, ?_⟩
      intro b hb
      simp only [List.head?_cons, Option.mem_def, Option.some.injEq] at hb
      rw [← hb]
      exact hk.2 hq
    · have hstep : insertWhere (fun kv : String × α => q kv.1) (key, val) (kv :: t)
          = kv :: insertWhere (fun kv : String × α => q kv.1) (key, val) t := by
        simp [insertWhere, hq]
      rw [hstep]
      simp only [List.map_cons] at hchain ⊢
      have htailchain : chainB R (t.map Prod.fst) = true :=
        chainB_tail R kv.1 (t.map Prod.fst) hchain
      have hrec := ih htailchain (fun s hs => hfacts s (by simp [hs]))
      rw [chainB_cons_iff]
      refine ⟨hrec, ?_⟩
      intro b hb
      cases t with
      | nil =>
        simp only [insertWhere, List.map_cons, List.map_nil, List.head?_cons,
          Option.mem_def, Option.some.injEq] at hb
        rw [← hb]
        exact hk.1 (by simpa using hq)
      | cons kv2 t2 =>
        by_cases hq2 : q kv2.1
        · have : insertWhere (fun kv : String × α => q kv.1) (key, val) (kv2 :: t2)
              = (key, val) :: kv2 :: t2 := by
            simp [insertWhere, hq2]
          rw [this] at hb
          simp only [List.map_cons, List.head?_cons, Option.mem_def,
            Option.some.injEq] at hb
          rw [← hb]
          exact hk.1 (by simpa using hq)
        · have : insertWhere (fun kv : String × α => q kv.1) (key, val) (kv2 :: t2)
              = kv2 :: insertWhere (fun kv : String × α => q kv.1) (key, val) t2 := by
            simp [insertWhere, hq2]
          rw [this] at hb
          simp only [List.map_cons, List.head?_cons, Option.mem_def,
            Option.some.injEq] at hb
          rw [← hb]
          simp only [chainB, Bool.and_eq_true, List.map_cons] at hchain
          exact hchain.1

theorem numKindB_unpack (d : Bool) (s : String) (h : numKindB d s = true) :
    ∃ n, (mkVersion s).to_numeric = some n ∧ (mkVersion s).is_date = d := by
  simp only [numKindB, Bool.and_eq_true, beq_iff_eq, Option.isSome_iff_exists] at h
  obtain ⟨⟨n, hn⟩, hd⟩ := h
  exact ⟨n, hn, hd⟩

theorem mkVersion_fixed_numeric (a b : String)
    (h : (mkVersion a).fixed = (mkVersion b).fixed) :
    (mkVersion a).to_numeric = (mkVersion b).to_numeric := by
  have ha : (mkVersion a).to_numeric = to_numeric ((mkVersion a).fixed) := rfl
  have hb : (mkVersion b).to_numeric = to_numeric ((mkVersion b).fixed) := rfl
  rw [ha, hb, h]

theorem asc_facts (d : Bool) (key s : String)
    (hkey : numKindB d key = true) (hs : numKindB d s = true)
    (hne : (mkVersion s).to_numeric ≠ (mkVersion key).to_numeric) :
    (Version.gt (mkVersion s) (mkVersion key) = false →
        Version.lt (mkVersion s) (mkVersion key) = true) ∧
      (Version.gt (mkVersion s) (mkVersion key) = true →
        Version.lt (mkVersion key) (mkVersion s) = true) := by
  obtain ⟨nk, hnk, hdk⟩ := numKindB_unpack d key hkey
  obtain ⟨ns, hns, hds⟩ := numKindB_unpack d s hs
  have hd : (mkVersion s).is_date = (mkVersion key).is_date := hds.trans hdk.symm
  have hlt1 : Version.lt (mkVersion s) (mkVersion key) = lexLt ns nk := by
    rw [version_lt_some _ _ ns nk hns hnk, if_pos hd]
  have hlt2 : Version.lt (mkVersion key) (mkVersion s) = lexLt nk ns := by
    rw [version_lt_some _ _ nk ns hnk hns, if_pos hd.symm]
  have hnsnk : ns ≠ nk := by
    intro hEq
    apply hne
    rw [hns, hnk, hEq]
  constructor
  · intro hgt
    by_cases hlt : Version.lt (mkVersion s) (mkVersion key) = true
    · exact hlt
    · have heqv : Version.eqv (mkVersion s) (mkVersion key) = true := by
        unfold Version.gt at hgt
        rw [Bool.not_eq_true] at hlt
        rw [hlt] at hgt
        simpa using hgt
      have : (mkVersion s).to_numeric = (mkVersion key).to_numeric :=
        mkVersion_fixed_numeric s key (by simpa [Version.eqv] using heqv)
      exact absurd this hne
  · intro hgt
    have hlt : Version.lt (mkVersion s) (mkVersion key) = false := by
      unfold Version.gt at hgt
      rw [Bool.and_eq_true] at hgt
      simpa using hgt.1
    rw [hlt1] at hlt
    rw [hlt2]
    exact lexLt_connex ns nk hlt hnsnk

theorem desc_fact (d : Bool) (key s : String)
    (hkey : numKindB d key = true) (hs : numKindB d s = true)
    (hne : (mkVersion s).to_numeric ≠ (mkVersion key).to_numeric)
    (hlt : Version.lt (mkVersion s) (mkVersion key) = false) :
    Version.lt (mkVersion key) (mkVersion s) = true := by
  obtain ⟨nk, hnk, hdk⟩ := numKindB_unpack d key hkey
  obtain ⟨ns, hns, hds⟩ := numKindB_unpack d s hs
  have hd : (mkVersion s).is_date = (mkVersion key).is_date := hds.trans hdk.symm
  rw [version_lt_some _ _ ns nk hns hnk, if_pos hd] at hlt
  rw [version_lt_some _ _ nk ns hnk hns, if_pos hd.symm]
  apply lexLt_connex ns nk hlt
  intro hEq
  apply hne
  rw [hns, hnk, hEq]

/-- C8 counterexample: inserting "1.1.0" into a table whose only version is
"1.0.0" does NOT append at the end — the single-key table is detected as
descending (a key is never strictly below itself), and since the existing
version is older than the new one the new entry is PREPENDED. -/
theorem c8_counterexample :
    smart_insert [("1.0.0", (0 : Nat))] "1.1.0" 1
        = some [("1.1.0", 1), ("1.0.0", 0)] ∧
      smart_insert [("1.0.0", (0 : Nat))] "1.1.0" 1
        ≠ some [("1.0.0", 0), ("1.1.0", 1)] := by
  refine ⟨by decide, by decide⟩

/-- C8 (amended): smart_insert preserves the order convention detected from
the first and last keys: for tables of two or more mutually consistent
numeric versions forming a strictly ascending (resp. descending) chain, with
a new distinct consistent numeric version, the resulting table is again
strictly ascending (resp. descending).  For a single-key table the detection
yields descending, so the new entry is inserted BEFORE the existing entry
when the existing version is older than the new one, and appended at the end
otherwise. -/
theorem c8_smart_insert_order :
    (∀ (α : Type) (k : String) (v0 : α) (key : String) (val : α),
        smart_insert [(k, v0)] key val
          = some (if Version.lt (mkVersion k) (mkVersion key) = true
              then [(key, val), (k, v0)] else [(k, v0), (key, val)])) ∧
      (∀ (α : Type) (l : List (String × α)) (key : String) (val : α) (d : Bool),
        2 ≤ l.length →
        (∀ s ∈ l.map Prod.fst, numKindB d s = true) →
        numKindB d key = true →
        (∀ s ∈ l.map Prod.fst, (mkVersion s).to_numeric ≠ (mkVersion key).to_numeric) →
        keysAscending (l.map Prod.fst) = true →
        ∃ out, smart_insert l key val = some out ∧
          keysAscending (out.map Prod.fst) = true) ∧
      (∀ (α : Type) (l : List (String × α)) (key : String) (val : α) (d : Bool),
        l ≠ [] →
        (∀ s ∈ l.map Prod.fst, numKindB d s = true) →
        numKindB d key = true →
        (∀ s ∈ l.map Prod.fst, (mkVersion s).to_numeric ≠ (mkVersion key).to_numeric) →
        keysDescending (l.map Prod.fst) = true →
        ∃ out, smart_insert l key val = some out ∧
          keysDescending (out.map Prod.fst) = true) := by
  refine ⟨?_, ?_, ?_⟩
  · -- single-element table: detection is descending, prepend iff existing < new
    intro α k v0 key val
    unfold smart_insert
    dsimp only [List.map_nil, lastD]
    have hirr := version_lt_irrefl (mkVersion k)
    rw [if_neg (by rw [hirr]; simp)]
    by_cases h : Version.lt (mkVersion k) (mkVersion key) = true
    · simp [List.findIdx_cons, h, insertAt]
    · simp only [Bool.not_eq_true] at h
      simp [List.findIdx_cons, h, insertAt]
  · -- ascending table with at least two entries
    intro α l key val d hlen hnums hkey hdist hasc
    cases l with
    | nil => simp at hlen
    | cons first rest =>
      cases rest with
      | nil => simp at hlen
      | cons second rest2 =>
        have hasc2 : chainB (fun a b => Version.lt (mkVersion a) (mkVersion b))
            (first.1 :: (second :: rest2).map Prod.fst) = true := hasc
        have hlast : Version.lt (mkVersion first.1)
            (mkVersion (lastD first.1 ((second :: rest2).map Prod.fst))) = true :=
          chainB_last (fun a b => Version.lt (mkVersion a) (mkVersion b))
            (fun x y z hx hy => version_lt_trans _ _ _ hx hy)
            ((second :: rest2).map Prod.fst) first.1 hasc2 (by simp)
        refine ⟨insertWhere (fun kv => Version.gt (mkVersion kv.1) (mkVersion key))
          (key, val) (first :: second :: rest2), ?_, ?_⟩
        · unfold smart_insert
          dsimp only
          rw [if_pos hlast, insertAt_findIdx]
        · exact chainB_insertWhere _ (fun s => Version.gt (mkVersion s) (mkVersion key))
            key val _ hasc
            (fun s hsmem => asc_facts d key s hkey (hnums s hsmem) (hdist s hsmem))
  · -- descending (or single-entry) table
    intro α l key val d hne hnums hkey hdist hdesc
    cases l with
    | nil => exact absurd rfl hne
    | cons first rest =>
      have hcond : Version.lt (mkVersion first.1)
          (mkVersion (lastD first.1 (rest.map Prod.fst))) = false := by
        cases rest with
        | nil =>
          dsimp only [List.map_nil, lastD]
          exact version_lt_irrefl (mkVersion first.1)
        | cons second rest2 =>
          have hdesc2 : chainB (fun a b => Version.lt (mkVersion b) (mkVersion a))
              (first.1 :: (second :: rest2).map Prod.fst) = true := hdesc
          have hlast : Version.lt
              (mkVersion (lastD first.1 ((second :: rest2).map Prod.fst)))
              (mkVersion first.1) = true :=
            chainB_last (fun a b => Version.lt (mkVersion b) (mkVersion a))
              (fun x y z hx hy => version_lt_trans _ _ _ hy hx)
              ((second :: rest2).map Prod.fst) first.1 hdesc2 (by simp)
          by_cases h : Version.lt (mkVersion first.1)
              (mkVersion (lastD first.1 ((second :: rest2).map Prod.fst))) = true
          · have := version_lt_trans _ _ _ h hlast
            rw [version_lt_irrefl] at this
            exact absurd this (by simp)
          · simpa using h
      refine ⟨insertWhere (fun kv => Version.lt (mkVersion kv.1) (mkVersion key))
        (key, val) (first :: rest), ?_, ?_⟩
      · unfold smart_insert
        dsimp only
        rw [if_neg (by rw [hcond]; simp), insertAt_findIdx]
      · apply chainB_insertWhere (fun a b => Version.lt (mkVersion b) (mkVersion a))
          (fun s => Version.lt (mkVersion s) (mkVersion key)) key val _ hdesc
        intro s hsmem
        constructor
        · intro hq
          exact desc_fact d key s hkey (hnums s hsmem) (hdist s hsmem) hq
        · intro hq
          exact hq

theorem c8_witness :
    (smart_insert [("1.0.0", (0 : Nat))] "0.9.0" 7
        = some (if Version.lt (mkVersion "1.0.0") (mkVersion "0.9.0") = true
            then [("0.9.0", 7), ("1.0.0", 0)] else [("1.0.0", 0), ("0.9.0", 7)])) ∧
      (∃ out, smart_insert [("1.0.0", (0 : Nat)), ("1.2.0", 1)] "1.1.0" 2 = some out ∧
        keysAscending (out.map Prod.fst) = true) ∧
      (∃ out, smart_insert [("1.2.0", (0 : Nat)), ("1.0.0", 1)] "1.1.0" 2 = some out ∧
        keysDescending (out.map Prod.fst) = true) :=
  ⟨c8_smart_insert_order.1 Nat "1.0.0" 0 "0.9.0" 7,
   c8_smart_insert_order.2.1 Nat [("1.0.0", 0), ("1.2.0", 1)] "1.1.0" 2 false
     (by decide) (by decide) (by decide) (by decide) (by decide),
   c8_smart_insert_order.2.2 Nat [("1.2.0", 0), ("1.0.0", 1)] "1.1.0" 2 false
     (by decide) (by decide) (by decide) (by decide) (by decide)⟩
